import Mathlib

/-!
Verification development for the BinanceBot trading decision engine.

The definitions below are a shallow embedding of the Python sources:
`analysis/technical.py`, `analysis/sentiment.py`, `strategy/selection.py`
and `strategy/trading.py`.  Prices, times and scores are modelled as
rationals (the Python code uses machine floats; the algebraic structure of
every claim under scrutiny is insensitive to rounding).  Functions that can
raise in Python, or that return `None`, are modelled with `Option`.
Floating-point special values (NaN and the infinities) that pandas/numpy
produce instead of raising are modelled explicitly by the `PFl` type where
the code can produce them.
-/

namespace BinanceBot

/-- Result of a float-valued computation that may be an IEEE special value:
either a finite number (modelled exactly as a rational), NaN, or ±infinity. -/
inductive PFl where
  | num (q : ℚ)
  | nan
  | pinf
  | ninf
  deriving DecidableEq, Repr

/-- Last `n` elements of a list, in order (models `.iloc[-n:]` /
the final window of a pandas rolling operation). -/
def lastN (l : List ℚ) (n : ℕ) : List ℚ :=
  l.drop (l.length - n)

/-- `calculate_sma` from `analysis/technical.py` (lines 82-91):
returns `None` when `len(data) < period` (or when pandas raises for a
zero-size rolling window, caught by the function's `except`), otherwise the
rolling mean over the final `period` closes. -/
def calculate_sma (data : List ℚ) (period : ℕ) : Option ℚ :=
  if data.length < period then none
  else if period = 0 then none
  else some ((lastN data period).sum / (period : ℚ))

/-- `calculate_rsi` from `analysis/technical.py` (lines 12-48): guard
`len(data) < period + 1` returns `None`; otherwise Wilder-style RSI from the
rolling means of gains and losses over the last `period` bars.  When
`avg_loss = 0`, pandas produces `RS = inf` (hence RSI `= 100`) for
`avg_gain > 0` and `RS = NaN` (hence RSI `= NaN`) when both averages are
zero; both float outcomes are modelled explicitly. -/
def calculate_rsi (data : List ℚ) (period : ℕ) : Option PFl :=
  if data.length < period + 1 then none
  else if period = 0 then none
  else
    let deltas := List.zipWith (fun a b => b - a) data data.tail
    let gains := deltas.map (fun d => if d > 0 then d else 0)
    let losses := deltas.map (fun d => if d < 0 then -d else 0)
    let avgGain := (lastN gains period).sum / (period : ℚ)
    let avgLoss := (lastN losses period).sum / (period : ℚ)
    if avgLoss = 0 then
      if avgGain = 0 then some .nan else some (.num 100)
    else some (.num (100 - 100 / (1 + avgGain / avgLoss)))

/-- One OHLC bar as used by `calculate_atr`. -/
structure Bar where
  high : ℚ
  low : ℚ
  close : ℚ
  deriving DecidableEq, Repr

/-- True range of each bar after the first, given the previous bar
(`max(high-low, |high-prev_close|, |low-prev_close|)`). -/
def trAux (prev : Bar) : List Bar → List ℚ
  | [] => []
  | b :: rest =>
      max (b.high - b.low) (max |b.high - prev.close| |b.low - prev.close|) :: trAux b rest

/-- The true-range series: for the first bar `close.shift()` is NaN, and the
pandas row-wise `max` skips NaN, leaving `high - low`. -/
def trueRanges : List Bar → List ℚ
  | [] => []
  | b :: rest => (b.high - b.low) :: trAux b rest

theorem trAux_length (prev : Bar) (l : List Bar) : (trAux prev l).length = l.length := by
  induction l generalizing prev with
  | nil => rfl
  | cons b rest ih => simp [trAux, ih]

theorem trueRanges_length (l : List Bar) : (trueRanges l).length = l.length := by
  cases l with
  | nil => rfl
  | cons b rest => simp [trueRanges, trAux_length]

/-- `calculate_atr` from `analysis/technical.py` (lines 383-416): guard
`len(data) < period + 1` returns `None`; otherwise the rolling mean of the
true range over the final `period` bars. -/
def calculate_atr (bars : List Bar) (period : ℕ) : Option ℚ :=
  if bars.length < period + 1 then none
  else if period = 0 then none
  else some ((lastN (trueRanges bars) period).sum / (period : ℚ))

/-- Sample variance with `ddof = 1`, the default of pandas `rolling().std()`,
over one window. -/
def sampleVariance (w : List ℚ) : ℚ :=
  let μ := w.sum / (w.length : ℚ)
  (w.map (fun x => (x - μ) ^ 2)).sum / ((w.length : ℚ) - 1)

/-- Output record of `calculate_bollinger_bands`. -/
structure BollingerOut where
  upper : ℚ
  middle : ℚ
  lower : ℚ
  currentPrice : ℚ
  position : PFl
  deriving DecidableEq, Repr

/-- `calculate_bollinger_bands` from `analysis/technical.py` (lines 275-296).
The function has no length guard and no try/except; `none` models the paths
where Python raises (`iloc[-1]` on an empty frame) or where the rolling
statistics are NaN because the window is not filled (`len < period`) or the
sample std is undefined (`period < 2`, ddof = 1).  The square root applied to
the rolling variance is float `sqrt`, kept abstract as the parameter
`sqrtFn`.  The `position` division `(price - lower)/(upper - lower)` is
performed exactly as in the source, with no zero-denominator guard: float
semantics give NaN for `0/0` and ±infinity for `x/0`, `x ≠ 0`. -/
def calculate_bollinger_bands (sqrtFn : ℚ → ℚ) (closes : List ℚ) (period : ℕ)
    (stdDev : ℚ) : Option BollingerOut :=
  match closes.getLast? with
  | none => none
  | some current =>
      if closes.length < period then none
      else if period < 2 then none
      else
        let w := lastN closes period
        let sma := w.sum / (period : ℚ)
        let std := sqrtFn (sampleVariance w)
        let upper := sma + std * stdDev
        let lower := sma - std * stdDev
        let numer := current - lower
        let denom := upper - lower
        some { upper := upper, middle := sma, lower := lower, currentPrice := current,
               position :=
                 if denom = 0 then
                   if numer = 0 then .nan else if numer > 0 then .pinf else .ninf
                 else .num (numer / denom) }

/-- Score fusion in `analyze_sentiment_for_candidates`
(`strategy/selection.py`, lines 340-358): weight the sentiment into the
technical score and apply the explicit buy-recommendation bonus/penalty. -/
def fuse_final_score (techScore sentimentScore : ℚ) (buyRecommendation : String) : ℚ :=
  let sentimentWeight := (sentimentScore - 50) * 2
  let normalizedSentiment := sentimentWeight * 5
  let finalScore := techScore * (7 / 10) + normalizedSentiment * (3 / 10)
  if buyRecommendation = "SIM" then finalScore + 50
  else if buyRecommendation = "NÃO" then finalScore - 50
  else finalScore

/-- The fused score exactly as the specification words it:
`tech_score*0.7 + normalized_sentiment*0.3` with
`normalized_sentiment = (sentiment_score-50)*2*5`, then `±50` for an
explicit YES/NO recommendation. -/
def spec_final_score (techScore sentimentScore : ℚ) (buyRecommendation : String) : ℚ :=
  techScore * (7 / 10) + ((sentimentScore - 50) * 2 * 5) * (3 / 10) +
    (if buyRecommendation = "SIM" then 50
     else if buyRecommendation = "NÃO" then -50 else 0)

/-- Claim C6: for every candidate with a returned verdict the fused score
equals `tech_score*0.7 + normalized_sentiment*0.3` with
`normalized_sentiment = (sentiment_score-50)*2*5`, increased by 50 for a SIM
recommendation and decreased by 50 for a NÃO recommendation. -/
theorem c6_fused_score_matches_spec (techScore sentimentScore : ℚ)
    (buyRecommendation : String) :
    fuse_final_score techScore sentimentScore buyRecommendation =
      spec_final_score techScore sentimentScore buyRecommendation := by
  unfold fuse_final_score spec_final_score
  by_cases h : buyRecommendation = "SIM"
  · simp [h]
  · by_cases h' : buyRecommendation = "NÃO"
    · simp [h, h']
      ring
    · simp [h, h']

/-- Claim C5, counterexample: the claim says SMA returns an absent value for
every series shorter than `period + 1`, but at length exactly `period`
(here `[1, 2]` with `period = 2`, length `2 < 3`) `calculate_sma` returns
the mean `3/2`, not `none`. -/
theorem c5_counterexample :
    [(1 : ℚ), 2].length < 2 + 1 ∧ calculate_sma [(1 : ℚ), 2] 2 = some (3 / 2) := by
  constructor
  · decide
  · norm_num [calculate_sma, lastN]

/-- Claim C5, amended: for every series shorter than `period + 1` bars, RSI
and ATR return `none`; SMA returns `none` only below `period` elements, and
at length exactly `period` (nonzero) it returns the mean of the whole
series.  All three are total functions (the Python bodies wrap every
computation in try/except returning `None`, so no exception escapes). -/
theorem c5_amended (closes : List ℚ) (bars : List Bar) (period : ℕ)
    (hc : closes.length < period + 1) (hb : bars.length < period + 1) :
    calculate_rsi closes period = none ∧
    calculate_atr bars period = none ∧
    (closes.length < period → calculate_sma closes period = none) ∧
    (closes.length = period → period ≠ 0 →
      calculate_sma closes period = some (closes.sum / (period : ℚ))) := by
  refine ⟨?_, ?_, ?_, ?_⟩
  · simp [calculate_rsi, hc]
  · simp [calculate_atr, hb]
  · intro h; simp [calculate_sma, h]
  · intro hlen hper
    have hnot : ¬ closes.length < period := by omega
    simp [calculate_sma, hnot, hper, lastN, hlen]

/-- Witness for `c5_amended` at a concrete input: series `[5, 7]` (and two
bars) with `period = 2`. -/
theorem c5_amended_witness :
    calculate_rsi [(5 : ℚ), 7] 2 = none ∧
    calculate_atr [⟨3, 1, 2⟩, ⟨4, 2, 3⟩] 2 = none ∧
    calculate_sma [(5 : ℚ), 7] 2 = some 6 := by
  have h := c5_amended [(5 : ℚ), 7] [⟨3, 1, 2⟩, ⟨4, 2, 3⟩] 2 (by decide) (by decide)
  refine ⟨h.1, h.2.1, ?_⟩
  have h4 := h.2.2.2 (by decide) (by decide)
  rw [h4]
  norm_num

/-! ## Position lifecycle and risk governor (`strategy/trading.py`) -/

/-- Exit triggers reported by the position checks in `strategy/trading.py`. -/
inductive Trigger where
  | stopLoss
  | takeProfit
  | timeoutSoft
  | timeoutHard
  deriving DecidableEq, Repr

/-- `check_position_timeout` (lines 312-353): returns `none` when no
position is open or the price fetch fails; otherwise the soft timeout is
tested first (`time_held >= POSITION_MAX_HOLD_TIME` and positive P&L), then
the hard timeout (`time_held >= POSITION_FORCE_SELL_TIME`). -/
def check_position_timeout (purchasePrice : ℚ) (positionOpenTime : Option ℚ)
    (now : ℚ) (currentPrice : Option ℚ) (maxHoldTime forceSellTime : ℚ) :
    Option Trigger :=
  match positionOpenTime with
  | none => none
  | some t0 =>
      match currentPrice with
      | none => none
      | some p =>
          let timeHeld := now - t0
          let pnlPercentage := (p - purchasePrice) / purchasePrice * 100
          if timeHeld ≥ maxHoldTime ∧ pnlPercentage > 0 then some .timeoutSoft
          else if timeHeld ≥ forceSellTime then some .timeoutHard
          else none

/-- `check_stop_loss_and_take_profit` (lines 197-238): `none` when the
purchase price is unset or the price fetch fails; stop-loss tested before
take-profit. -/
def check_stop_loss_and_take_profit (purchasePrice stopLossPct takeProfitPct : ℚ)
    (currentPrice : Option ℚ) : Option Trigger :=
  if purchasePrice = 0 then none
  else
    match currentPrice with
    | none => none
    | some p =>
        let slPrice := purchasePrice * (1 - stopLossPct)
        let tpPrice := purchasePrice * (1 + takeProfitPct)
        if p ≤ slPrice then some .stopLoss
        else if p ≥ tpPrice then some .takeProfit
        else none

/-- Exit-trigger evaluation of one cycle of `execute_strategy_enhanced`
(lines 438-447): the timeout check runs first and wins; only when it fires no
trigger is the stop-loss/take-profit check consulted. -/
def evaluate_exit_trigger (purchasePrice stopLossPct takeProfitPct : ℚ)
    (positionOpenTime : Option ℚ) (now : ℚ) (currentPrice : Option ℚ)
    (maxHoldTime forceSellTime : ℚ) : Option Trigger :=
  match check_position_timeout purchasePrice positionOpenTime now currentPrice
      maxHoldTime forceSellTime with
  | some t => some t
  | none =>
      check_stop_loss_and_take_profit purchasePrice stopLossPct takeProfitPct currentPrice

/-- The position-tracking globals read and written by `update_trailing_stop`. -/
structure TrailState where
  purchasePrice : ℚ
  stopLossPct : ℚ
  highestPriceReached : ℚ
  deriving DecidableEq, Repr

/-- `update_trailing_stop` (lines 357-390): a no-op when trailing is disabled,
no coin is held, or the price fetch fails; otherwise the highest price seen is
raised when exceeded, and `stop_loss_pct` is reassigned only when the
candidate stop price `highest*(1 - TRAILING_STOP_DISTANCE)` is above the
price implied by the current `stop_loss_pct`. -/
def update_trailing_stop (useTrailingStop coinOpen : Bool)
    (currentPrice : Option ℚ) (trailingStopDistance : ℚ) (st : TrailState) :
    TrailState :=
  if !useTrailingStop || !coinOpen then st
  else
    match currentPrice with
    | none => st
    | some p =>
        if p > st.highestPriceReached then
          if p * (1 - trailingStopDistance) > st.purchasePrice * (1 - st.stopLossPct) then
            { st with highestPriceReached := p,
                      stopLossPct := 1 - p * (1 - trailingStopDistance) / st.purchasePrice }
          else { st with highestPriceReached := p }
        else st

/-- The trading globals of `strategy/trading.py` that the realized-exit
branch can touch (lines 20-40). -/
structure TradingState where
  currentCoin : Option String
  currentCoinPurchasePrice : ℚ
  currentCoinQuantityBought : ℚ
  currentCoinTotalCostUsdt : ℚ
  usdtBalanceBeforeTrade : ℚ
  tradesToday : ℕ
  lastTradeTimestamp : ℚ
  dailyProfitLoss : ℚ
  deriving DecidableEq, Repr

/-- `update_daily_profit` (lines 176-180). -/
def update_daily_profit (st : TradingState) (amount : ℚ) : TradingState :=
  { st with dailyProfitLoss := st.dailyProfitLoss + amount }

/-- The complete set of global-state mutations performed by the
successful-sell branch of `execute_strategy` (lines 560-605; the enhanced
variant, lines 457-502, performs the same assignments plus the position-timer
resets): the realized P&L is computed from the USDT balance change, added to
the daily P&L via `update_daily_profit`, and the position fields are reset.
No statement in the repository increments `trades_today` or assigns
`last_trade_timestamp`. -/
def realize_exit (st : TradingState) (usdtBalanceAfterTrade : ℚ) : TradingState :=
  let profitOrLossUsdtBalance := usdtBalanceAfterTrade - st.usdtBalanceBeforeTrade
  let st' := update_daily_profit st profitOrLossUsdtBalance
  { st' with currentCoin := none,
             currentCoinPurchasePrice := 0,
             currentCoinQuantityBought := 0,
             currentCoinTotalCostUsdt := 0,
             usdtBalanceBeforeTrade := 0 }

/-- The risk-governor globals (`trades_today`, `last_trade_date`,
`last_trade_timestamp`, `daily_profit_loss`, `current_day`). -/
structure RiskState where
  tradesToday : ℕ
  lastTradeDate : Option ℤ
  lastTradeTimestamp : ℚ
  dailyProfitLoss : ℚ
  currentDay : ℤ
  deriving DecidableEq, Repr

/-- `can_open_new_trade` (lines 42-71): resets the daily trade counter on a
date change, then gates on the daily trade limit and on the minimum spacing
since `last_trade_timestamp`.  It never reads `daily_profit_loss`. -/
def can_open_new_trade (maxTradesPerDay : ℕ) (minTimeBetweenTrades : ℚ)
    (st : RiskState) (currentTime : ℚ) (today : ℤ) : Bool × RiskState :=
  let st' := if st.lastTradeDate ≠ some today then
      { st with tradesToday := 0, lastTradeDate := some today } else st
  if st'.tradesToday ≥ maxTradesPerDay then (false, st')
  else if st'.lastTradeTimestamp > 0 ∧
      currentTime - st'.lastTradeTimestamp < minTimeBetweenTrades then (false, st')
  else (true, st')

/-- `reset_daily_performance` (lines 168-173). -/
def reset_daily_performance (st : RiskState) (todayUtc : ℤ) : RiskState :=
  { st with dailyProfitLoss := 0, currentDay := todayUtc }

/-- `check_daily_loss_limit` (lines 183-194): resets the daily P&L when the
UTC date rolled over, then reports whether
`daily_profit_loss <= -MAX_DAILY_LOSS_USDT`. -/
def check_daily_loss_limit (maxDailyLoss : ℚ) (st : RiskState) (todayUtc : ℤ) :
    Bool × RiskState :=
  let st' := if todayUtc ≠ st.currentDay then reset_daily_performance st todayUtc else st
  (decide (st'.dailyProfitLoss ≤ -maxDailyLoss), st')

/-- The daily-loss gate at the head of `execute_strategy` (lines 523-524) and
`execute_strategy_enhanced` (lines 422-423): when `check_daily_loss_limit`
reports the limit hit, the cycle returns immediately and no trade is opened. -/
def strategy_cycle_blocked (maxDailyLoss : ℚ) (st : RiskState) (todayUtc : ℤ) : Bool :=
  (check_daily_loss_limit maxDailyLoss st todayUtc).1

/-- A sequence of `check_daily_loss_limit` calls, one per listed UTC date,
threading the governor state. -/
def iterate_loss_checks (maxDailyLoss : ℚ) (st : RiskState) :
    List ℤ → List Bool × RiskState
  | [] => ([], st)
  | d :: ds =>
      let out := check_daily_loss_limit maxDailyLoss st d
      let rest := iterate_loss_checks maxDailyLoss out.2 ds
      (out.1 :: rest.1, rest.2)

/-- Claim C1: a realized exit adds the realized P&L to the cumulative daily
P&L, but — contrary to the claim — it leaves the risk governor's daily trade
counter and last-trade timestamp untouched: no statement in the repository
ever increments `trades_today` or assigns `last_trade_timestamp`, so the
governor's per-day and spacing gates can never bind. -/
theorem c1_exit_updates_pnl_but_not_risk_counters (st : TradingState)
    (usdtBalanceAfterTrade : ℚ) :
    (realize_exit st usdtBalanceAfterTrade).dailyProfitLoss =
        st.dailyProfitLoss + (usdtBalanceAfterTrade - st.usdtBalanceBeforeTrade) ∧
    (realize_exit st usdtBalanceAfterTrade).tradesToday = st.tradesToday ∧
    (realize_exit st usdtBalanceAfterTrade).lastTradeTimestamp = st.lastTradeTimestamp :=
  ⟨rfl, rfl, rfl⟩

/-- Claim C2, counterexample: a position held exactly `force_sell_time`
(172800 s) with a positive unrealized P&L (entry 100, price 110) is reported
as `TIMEOUT_SOFT`, not `TIMEOUT_HARD` — the soft timeout is evaluated before
the hard one, refuting the claimed evaluation order and the claim that every
position past `force_sell_time` exits with the hard-timeout trigger. -/
theorem c2_counterexample :
    check_position_timeout 100 (some 0) 172800 (some 110) 42400 172800 =
        some Trigger.timeoutSoft ∧
    Trigger.timeoutSoft ≠ Trigger.timeoutHard := by
  refine ⟨?_, by decide⟩
  norm_num [check_position_timeout]

/-- Claim C2, amended: the exit triggers are evaluated in the order soft
timeout, hard timeout, stop-loss, take-profit (first match wins).  Given
`max_hold_time ≤ force_sell_time` (as configured: 42400 ≤ 172800), every open
position held at least `force_sell_time` exits with a timeout trigger —
`TIMEOUT_SOFT` when the unrealized P&L is positive, `TIMEOUT_HARD`
otherwise — so the evaluation never holds past the hard deadline, but the
reported trigger does depend on the sign of the P&L. -/
theorem c2_amended (purchasePrice t0 now p maxHoldTime forceSellTime : ℚ)
    (_hpos : 0 < purchasePrice)
    (hord : maxHoldTime ≤ forceSellTime)
    (hheld : forceSellTime ≤ now - t0) :
    check_position_timeout purchasePrice (some t0) now (some p) maxHoldTime
        forceSellTime =
      some (if (p - purchasePrice) / purchasePrice * 100 > 0 then
        Trigger.timeoutSoft else Trigger.timeoutHard) := by
  have hmax : maxHoldTime ≤ now - t0 := le_trans hord hheld
  by_cases hpnl : (p - purchasePrice) / purchasePrice * 100 > 0
  · simp [check_position_timeout, hmax, hpnl]
  · simp [check_position_timeout, hpnl, hheld]

/-- Witness for `c2_amended`: entry 100, price 110, held exactly the force
deadline — the evaluation exits with `TIMEOUT_SOFT`. -/
theorem c2_amended_witness :
    check_position_timeout 100 (some 0) 172800 (some 110) 42400 172800 =
        some Trigger.timeoutSoft := by
  have h := c2_amended 100 0 172800 110 42400 172800 (by norm_num) (by norm_num)
    (by norm_num)
  rw [h]
  norm_num

/-- Claim C3, counterexample: the claim fails once the trailing-stop ratchet
has raised the stop price above the entry price.  From entry 100 with stop
10%, a rise to 120 under trailing distance 8% drives `update_trailing_stop`
to set `stop_loss_pct = 1 - 110.4/100 = -0.104`, i.e. a stop price of 110.4
above entry.  A position in that state held exactly `force_sell_time`
(172800 s) at price 105 is at or below its stop-loss price, yet its P&L is
+5% — so `check_position_timeout` fires the *soft* timeout first and the
cycle reports `TIMEOUT_SOFT`, not `TIMEOUT_HARD` as claimed. -/
theorem c3_counterexample :
    (update_trailing_stop true true (some 120) (8 / 100)
        ⟨100, 1 / 10, 100⟩).stopLossPct = -(13 / 125) ∧
    (105 : ℚ) ≤ 100 * (1 - -(13 / 125)) ∧
    evaluate_exit_trigger 100 (-(13 / 125)) (2 / 10) (some 0) 172800 (some 105)
        42400 172800 = some Trigger.timeoutSoft ∧
    Trigger.timeoutSoft ≠ Trigger.timeoutHard := by
  refine ⟨?_, by norm_num, ?_, by decide⟩
  · norm_num [update_trailing_stop]
  · norm_num [evaluate_exit_trigger, check_position_timeout]

/-- Claim C3, amended: a position simultaneously past `force_sell_time` and
at or below its stop-loss price always exits with a timeout trigger, never
`STOP_LOSS` (the timeout checks run before the stop-loss/take-profit check,
given `max_hold_time ≤ force_sell_time` as configured).  The trigger is
`TIMEOUT_HARD` whenever the stop price is at or below the entry price
(`stop_loss_pct ≥ 0`, every state the trailing ratchet has not yet pushed
past entry), since at or below such a stop the P&L is non-positive and the
soft timeout cannot fire; but once the ratchet has raised the stop above
entry (`stop_loss_pct < 0`), a price at or below the stop can still be in
profit and the reported trigger is then `TIMEOUT_SOFT`. -/
theorem c3_amended
    (purchasePrice stopLossPct takeProfitPct t0 now p maxHoldTime forceSellTime : ℚ)
    (hpos : 0 < purchasePrice)
    (hord : maxHoldTime ≤ forceSellTime)
    (hbelow : p ≤ purchasePrice * (1 - stopLossPct))
    (hheld : forceSellTime ≤ now - t0) :
    evaluate_exit_trigger purchasePrice stopLossPct takeProfitPct (some t0) now
        (some p) maxHoldTime forceSellTime =
      some (if (p - purchasePrice) / purchasePrice * 100 > 0 then
        Trigger.timeoutSoft else Trigger.timeoutHard) ∧
    evaluate_exit_trigger purchasePrice stopLossPct takeProfitPct (some t0) now
        (some p) maxHoldTime forceSellTime ≠ some Trigger.stopLoss ∧
    (0 ≤ stopLossPct →
      evaluate_exit_trigger purchasePrice stopLossPct takeProfitPct (some t0) now
        (some p) maxHoldTime forceSellTime = some Trigger.timeoutHard) := by
  have hmax : maxHoldTime ≤ now - t0 := le_trans hord hheld
  have htime : check_position_timeout purchasePrice (some t0) now (some p)
      maxHoldTime forceSellTime =
      some (if (p - purchasePrice) / purchasePrice * 100 > 0 then
        Trigger.timeoutSoft else Trigger.timeoutHard) := by
    by_cases hpnl : (p - purchasePrice) / purchasePrice * 100 > 0
    · simp [check_position_timeout, hmax, hpnl]
    · simp [check_position_timeout, hpnl, hheld]
  have heval : evaluate_exit_trigger purchasePrice stopLossPct takeProfitPct
      (some t0) now (some p) maxHoldTime forceSellTime =
      some (if (p - purchasePrice) / purchasePrice * 100 > 0 then
        Trigger.timeoutSoft else Trigger.timeoutHard) := by
    unfold evaluate_exit_trigger
    rw [htime]
  refine ⟨heval, ?_, ?_⟩
  · rw [heval]
    by_cases hpnl : (p - purchasePrice) / purchasePrice * 100 > 0
    · rw [if_pos hpnl]
      intro habs
      simp at habs
    · rw [if_neg hpnl]
      intro habs
      simp at habs
  · intro hslp
    have hple : p ≤ purchasePrice := by
      calc p ≤ purchasePrice * (1 - stopLossPct) := hbelow
      _ ≤ purchasePrice * 1 := by
          apply mul_le_mul_of_nonneg_left _ (le_of_lt hpos)
          linarith
      _ = purchasePrice := mul_one _
    have hpnl : ¬ (p - purchasePrice) / purchasePrice * 100 > 0 := by
      have hdiv : (p - purchasePrice) / purchasePrice ≤ 0 :=
        div_nonpos_of_nonpos_of_nonneg (by linarith) (le_of_lt hpos)
      nlinarith
    rw [heval, if_neg hpnl]

/-- Witness for `c3_amended`: entry 100, stop-loss 10% (stop price 90, a
non-negative `stop_loss_pct`), price 85, held 172800 s ≥ the force deadline —
the reported trigger is `TIMEOUT_HARD`. -/
theorem c3_amended_witness :
    evaluate_exit_trigger 100 (1 / 10) (2 / 10) (some 0) 172800 (some 85) 42400
        172800 = some Trigger.timeoutHard := by
  have h := c3_amended 100 (1 / 10) (2 / 10) 0 172800 85 42400 172800
    (by norm_num) (by norm_num) (by norm_num) (by norm_num)
  exact h.2.2 (by norm_num)

/-- Claim C7: across one `update_trailing_stop` cycle the effective stop
price `purchase_price*(1 - stop_loss_pct)` never decreases, the tracked
highest price never decreases, and the purchase price is untouched: the
ratchet reassigns `stop_loss_pct` only when the candidate stop price
`highest*(1 - trailing_distance)` exceeds the price implied by the current
`stop_loss_pct`. -/
theorem c7_trailing_stop_monotone (useTrailingStop coinOpen : Bool)
    (currentPrice : Option ℚ) (trailingStopDistance : ℚ) (st : TrailState)
    (hpos : 0 < st.purchasePrice) :
    st.purchasePrice * (1 - st.stopLossPct) ≤
      (update_trailing_stop useTrailingStop coinOpen currentPrice
        trailingStopDistance st).purchasePrice *
      (1 - (update_trailing_stop useTrailingStop coinOpen currentPrice
        trailingStopDistance st).stopLossPct) ∧
    st.highestPriceReached ≤
      (update_trailing_stop useTrailingStop coinOpen currentPrice
        trailingStopDistance st).highestPriceReached ∧
    (update_trailing_stop useTrailingStop coinOpen currentPrice
        trailingStopDistance st).purchasePrice = st.purchasePrice := by
  unfold update_trailing_stop
  split
  · exact ⟨le_refl _, le_refl _, rfl⟩
  · split
    · exact ⟨le_refl _, le_refl _, rfl⟩
    · rename_i p
      split
      · rename_i hhigh
        split
        · rename_i hratchet
          refine ⟨?_, le_of_lt hhigh, rfl⟩
          have hne : st.purchasePrice ≠ 0 := ne_of_gt hpos
          have heq : st.purchasePrice *
              (1 - (1 - p * (1 - trailingStopDistance) / st.purchasePrice)) =
              p * (1 - trailingStopDistance) := by
            field_simp
          simp only [heq]
          exact le_of_lt hratchet
        · exact ⟨le_refl _, le_of_lt hhigh, rfl⟩
      · exact ⟨le_refl _, le_refl _, rfl⟩

/-- Witness for `c7_trailing_stop_monotone`: entry 100, stop 10%, highest 100,
price rises to 120 with trailing distance 8% — the effective stop ratchets
from 90 up to `120*0.92 = 110.4` and the highest price rises to 120. -/
theorem c7_witness :
    (0 : ℚ) < (100 : ℚ) ∧
    (100 : ℚ) * (1 - 1 / 10) ≤
      (update_trailing_stop true true (some 120) (8 / 100)
        ⟨100, 1 / 10, 100⟩).purchasePrice *
      (1 - (update_trailing_stop true true (some 120) (8 / 100)
        ⟨100, 1 / 10, 100⟩).stopLossPct) :=
  ⟨by norm_num,
    (c7_trailing_stop_monotone true true (some 120) (8 / 100) ⟨100, 1 / 10, 100⟩
      (by norm_num)).1⟩

/-- Claim C9, counterexample: with the daily P&L at −1000 USDT, far past the
configured −100 USDT kill switch, `can_open_new_trade` still returns `True`
(state: 0 trades today, date current, no previous trade timestamp; limits
`MAX_TRADES_PER_DAY = 5`, `MIN_TIME_BETWEEN_TRADES = 1800`):
`can_open_new_trade` never reads the daily P&L. -/
theorem c9_counterexample :
    (⟨0, some 0, 0, -1000, 0⟩ : RiskState).dailyProfitLoss ≤ -(100 : ℚ) ∧
    (can_open_new_trade 5 1800 ⟨0, some 0, 0, -1000, 0⟩ 10000 0).1 = true := by
  constructor
  · norm_num
  · norm_num [can_open_new_trade]

/-- Claim C9, amended: the daily-loss kill switch lives in
`check_daily_loss_limit` (consulted at the head of each strategy cycle, which
then opens no trade), not in `can_open_new_trade`.  Once
`daily_profit_loss ≤ -max_daily_loss`, every `check_daily_loss_limit` call on
the same UTC date reports the limit hit and leaves the state unchanged, so
the strategy cycle stays blocked until the UTC date changes, at which point
the P&L resets to 0 and (for a positive loss limit) the gate reopens. -/
theorem c9_amended (maxDailyLoss : ℚ) (st : RiskState) (days : List ℤ)
    (hloss : st.dailyProfitLoss ≤ -maxDailyLoss)
    (hsame : ∀ d ∈ days, d = st.currentDay) :
    (∀ b ∈ (iterate_loss_checks maxDailyLoss st days).1, b = true) ∧
    (iterate_loss_checks maxDailyLoss st days).2 = st ∧
    strategy_cycle_blocked maxDailyLoss st st.currentDay = true ∧
    (∀ d : ℤ, d ≠ st.currentDay → 0 < maxDailyLoss →
      (check_daily_loss_limit maxDailyLoss st d).1 = false ∧
      (check_daily_loss_limit maxDailyLoss st d).2.dailyProfitLoss = 0) := by
  have hsingle : check_daily_loss_limit maxDailyLoss st st.currentDay = (true, st) := by
    simp [check_daily_loss_limit, hloss]
  refine ⟨?_, ?_, ?_, ?_⟩
  · induction days with
    | nil => intro b hb; simp [iterate_loss_checks] at hb
    | cons d ds ih =>
        intro b hb
        have hd : d = st.currentDay := hsame d (by simp)
        subst hd
        simp only [iterate_loss_checks, hsingle] at hb
        rcases List.mem_cons.mp hb with h | h
        · exact h
        · exact ih (fun d hd => hsame d (by simp [hd])) b h
  · induction days with
    | nil => rfl
    | cons d ds ih =>
        have hd : d = st.currentDay := hsame d (by simp)
        subst hd
        simp only [iterate_loss_checks, hsingle]
        exact ih (fun d hd => hsame d (by simp [hd]))
  · simp [strategy_cycle_blocked, hsingle]
  · intro d hne hposmax
    constructor
    · simp only [check_daily_loss_limit, reset_daily_performance]
      rw [if_pos hne]
      simp only [decide_eq_false_iff_not]
      intro habs
      linarith
    · simp only [check_daily_loss_limit, reset_daily_performance]
      rw [if_pos hne]

/-- Witness for `c9_amended`: P&L −1000 against a 100 USDT limit, three
same-day checks all block; a next-day check unblocks. -/
theorem c9_amended_witness :
    (∀ b ∈ (iterate_loss_checks 100 ⟨0, some 0, 0, -1000, 0⟩ [0, 0, 0]).1, b = true) ∧
    (check_daily_loss_limit 100 ⟨0, some 0, 0, -1000, 0⟩ 1).1 = false := by
  have h := c9_amended 100 ⟨0, some 0, 0, -1000, 0⟩ [0, 0, 0] (by norm_num)
    (by intro d hd; simpa using hd)
  refine ⟨h.1, (h.2.2.2 1 (by decide) (by norm_num)).1⟩

/-! ## Sentiment verdicts (`analysis/sentiment.py`)

Verdicts flow out of `extract_json_from_text`, so they are JSON-shaped
Python values: `None`, booleans, strings, integers, floats, lists and
string-keyed dicts.  `PyVal` models exactly these.  Dicts are modelled as
insertion-ordered association lists (Python dicts preserve insertion order
and JSON objects carry no duplicate keys).  Floats are modelled as exact
rationals: `validate_sentiment_result` only ever compares scores against the
integer bounds 0 and 100 and passes them through unchanged, so no rounding
behaviour is observable. -/

/-- A JSON-shaped Python value. -/
inductive PyVal where
  | pynone
  | pybool (b : Bool)
  | str (s : String)
  | int (n : ℤ)
  | float (q : ℚ)
  | list (xs : List PyVal)
  | dict (entries : List (String × PyVal))

/-- First-match lookup in an insertion-ordered association list
(Python `d[k]` / `k in d`). -/
def alistGet {α : Type} : List (String × α) → String → Option α
  | [], _ => none
  | (k, v) :: rest, key => if k = key then some v else alistGet rest key

/-- Update-or-append (Python `d[k] = v`: an existing key keeps its position,
a new key is appended in insertion order). -/
def alistSet {α : Type} : List (String × α) → String → α → List (String × α)
  | [], key, v => [(key, v)]
  | (k, w) :: rest, key, v =>
      if k = key then (key, v) :: rest else (k, w) :: alistSet rest key v

/-- The entries of `create_default_sentiment_result` (lines 17-30 of
`analysis/sentiment.py`), in source order. -/
def defaultEntries (coin : String) (sentiment : String) : List (String × PyVal) :=
  [("sentiment", .str sentiment),
   ("score", .int 50),
   ("buy_recommendation", .str "NEUTRO"),
   ("key_factors", .list [.str ("Análise de sentimento inconclusiva para " ++ coin)]),
   ("reddit_sentiment", .str sentiment),
   ("twitter_sentiment", .str sentiment),
   ("news_sentiment", .str sentiment),
   ("error", .str "Falha na análise de sentimento")]

/-- `create_default_sentiment_result` (lines 17-30): the default-neutral
verdict carrying the error marker under the `"error"` key. -/
def create_default_sentiment_result (coin : String) (sentiment : String) : PyVal :=
  .dict (defaultEntries coin sentiment)

/-- Numeric view of a Python value for `<` comparisons: ints, floats and
booleans (which compare as 0/1) are ordered; any other operand raises
`TypeError`. -/
def pyToQ : PyVal → Option ℚ
  | .int n => some (n : ℚ)
  | .float q => some q
  | .pybool b => some (if b then 1 else 0)
  | _ => none

/-- Python `min(100, x)`: returns `x` when `x < 100`, else the first
argument `100` (ties keep the first argument, so `min(100, 100.0)` is the
`int` 100).  A non-numeric `x` raises `TypeError` (`none`). -/
def pyMin100 (x : PyVal) : Option PyVal :=
  match pyToQ x with
  | none => none
  | some q => if q < 100 then some x else some (.int 100)

/-- Python `max(0, x)`: returns `x` when `x > 0`, else the first argument
`0` (ties keep the first argument, so `max(0, 0.0)` is the `int` 0).  A
non-numeric `x` raises `TypeError` (`none`). -/
def pyMax0 (x : PyVal) : Option PyVal :=
  match pyToQ x with
  | none => none
  | some q => if 0 < q then some x else some (.int 0)

/-- `max(0, min(100, score))` — line 56 of `analysis/sentiment.py`. -/
def clampScoreVal (x : PyVal) : Option PyVal :=
  (pyMin100 x).bind pyMax0

/-- Model of Python `int(s)` on a string: optional surrounding whitespace,
optional sign, one or more ASCII digits; everything else raises
`ValueError` (`none`). -/
def digitsToNat : List Char → Option ℕ
  | [] => none
  | cs =>
      cs.foldl (fun acc c =>
        match acc with
        | none => none
        | some n => if c.isDigit then some (n * 10 + (c.toNat - 48)) else none)
        (some 0)

/-- Python `int(s)` (the coercion used on string scores). -/
def pyIntOfString (s : String) : Option ℤ :=
  match s.trim.toList with
  | '-' :: rest => (digitsToNat rest).map (fun n => -(n : ℤ))
  | '+' :: rest => (digitsToNat rest).map (fun n => (n : ℤ))
  | cs => (digitsToNat cs).map (fun n => (n : ℤ))

/-- One step of the back-fill loop `for key in default_result: if key not in
result: result[key] = default_result[key]` (lines 44-46). -/
def fillMissing (es : List (String × PyVal)) (kv : String × PyVal) :
    List (String × PyVal) :=
  if (alistGet es kv.1).isSome then es else alistSet es kv.1 kv.2

/-- The whole back-fill loop over the default template
(`create_default_sentiment_result("desconhecido")`). -/
def backfillDefaults (es : List (String × PyVal)) : List (String × PyVal) :=
  (defaultEntries "desconhecido" "neutro").foldl fillMissing es

/-- Lines 49-53: a string score is coerced with `int(...)`, defaulting to 50
on `ValueError`; non-string scores pass through.  (The key is always present
here: the back-fill has already run.) -/
def coerceScore (es : List (String × PyVal)) : List (String × PyVal) :=
  match alistGet es "score" with
  | some (.str s) =>
      match pyIntOfString s with
      | some n => alistSet es "score" (.int n)
      | none => alistSet es "score" (.int 50)
  | _ => es

/-- Line 56: clamp the score; `none` models the `TypeError` Python raises
when the score is not comparable with an integer. -/
def clampScore (es : List (String × PyVal)) : Option (List (String × PyVal)) :=
  match alistGet es "score" with
  | some s => (clampScoreVal s).map (fun c => alistSet es "score" c)
  | none => none

/-- Is the recommendation one of the three canonical values
(`result["buy_recommendation"] in ["SIM", "NÃO", "NEUTRO"]`)?  Python `==`
between a non-string and a string is simply `False`. -/
def canonicalRec : PyVal → Bool
  | .str s => s == "SIM" || s == "NÃO" || s == "NEUTRO"
  | _ => false

/-- Model of Python `str.upper()` covering ASCII letters plus the accented
letter appearing in the program's own literals (`ã → Ã`); only the canonical
SIM/NÃO/NEUTRO spellings matter downstream. -/
def pyUpper (s : String) : String :=
  String.mk (s.toList.map (fun c => if c = 'ã' then 'Ã' else c.toUpper))

/-- Does `needle` occur at the head of `hay`? -/
def startsWithList : List Char → List Char → Bool
  | [], _ => true
  | _ :: _, [] => false
  | a :: as, b :: bs => a == b && startsWithList as bs

/-- Python `needle in hay` on strings (contiguous substring). -/
def hasSubList (needle : List Char) : List Char → Bool
  | [] => needle.isEmpty
  | b :: bs => startsWithList needle (b :: bs) || hasSubList needle bs

/-- Python `needle in hay` on strings. -/
def strIn (needle hay : String) : Bool := hasSubList needle.toList hay.toList

/-- Lines 59-66: normalise `buy_recommendation` into the 3-value enum.  A
non-canonical, non-string value hits `.upper()` and raises `AttributeError`
(`none`). -/
def fixBuyRecommendation (es : List (String × PyVal)) :
    Option (List (String × PyVal)) :=
  match alistGet es "buy_recommendation" with
  | none => none
  | some v =>
      if canonicalRec v then some es
      else
        match v with
        | .str s =>
            let u := pyUpper s
            if strIn "SIM" u || strIn "BUY" u || strIn "COMPRA" u then
              some (alistSet es "buy_recommendation" (.str "SIM"))
            else if strIn "NÃO" u || strIn "NAO" u || strIn "NOT" u || strIn "NO" u then
              some (alistSet es "buy_recommendation" (.str "NÃO"))
            else some (alistSet es "buy_recommendation" (.str "NEUTRO"))
        | _ => none

/-- Lines 68-73: coerce `key_factors` to a list.  (The key is always present
here: the back-fill has already run.) -/
def fixKeyFactors (es : List (String × PyVal)) : List (String × PyVal) :=
  match alistGet es "key_factors" with
  | some (.list _) => es
  | some (.str s) => alistSet es "key_factors" (.list [.str s])
  | some _ => alistSet es "key_factors" (.list [.str "Fator não especificado"])
  | none => es

/-- `validate_sentiment_result` (lines 33-75 of `analysis/sentiment.py`):
non-dicts are replaced by the default verdict; dicts are back-filled,
score-coerced and clamped, recommendation-normalised and key-factor-coerced
in source order.  `none` models the exceptions the body can raise
(`TypeError` from clamping an incomparable score, `AttributeError` from
`.upper()` on a non-string recommendation). -/
def validate_sentiment_result : PyVal → Option PyVal
  | .dict es =>
      (clampScore (coerceScore (backfillDefaults es))).bind fun es3 =>
        (fixBuyRecommendation es3).map fun es4 => .dict (fixKeyFactors es4)
  | _ => some (create_default_sentiment_result "desconhecido" "neutro")

/-- The outcomes of the external oracle calls one
`analyze_sentiment_with_llm` invocation can make.  For each oracle,
the outer `Option` is the transport outcome (`none`: the call failed, raised,
or returned a response without usable `choices`), and the inner `Option` is
the result of `extract_json_from_text` on the returned content. -/
structure LlmEnv where
  llmOnline : Bool
  llmReply : Option (Option PyVal)
  openaiReply : Option (Option PyVal)

/-- `use_openai_for_sentiment` (lines 78-113): any failure — transport,
extraction, or a validation exception, all caught by the function's own
try/except — degrades to the default verdict; a validated verdict is
returned as-is.  It never writes the cache. -/
def use_openai_for_sentiment (env : LlmEnv) : PyVal :=
  match env.openaiReply with
  | none => create_default_sentiment_result "desconhecido" "neutro"
  | some none => create_default_sentiment_result "desconhecido" "neutro"
  | some (some j) =>
      match validate_sentiment_result j with
      | some r => r
      | none => create_default_sentiment_result "desconhecido" "neutro"

/-- The sentiment cache: `cache_key ↦ (write_time, verdict)`. -/
abbrev SentimentCache := List (String × (ℚ × PyVal))

/-- `f"{coin}_{int(time.time() / 3600)}"` (line 128); the clock is
non-negative, where Python's truncating `int()` coincides with the floor. -/
def sentiment_cache_key (coin : String) (now : ℚ) : String :=
  coin ++ "_" ++ toString (⌊now / 3600⌋ : ℤ)

/-- The cache-miss body of `analyze_sentiment_with_llm` (lines 137-194).
When the local LLM is online and its (retried) reply has usable `choices`,
the extracted JSON — or, if extraction failed, the default verdict — is
validated and written to the cache; a validation exception falls to the
outer handler, returning the default without caching.  All other paths
(LLM offline or reply unusable) either delegate to the OpenAI fallback or
raise into the outer handler; none of them writes the cache. -/
def analyze_sentiment_miss (useOpenaiFallback : Bool) (env : LlmEnv)
    (cache : SentimentCache) (coin : String) (now : ℚ) (key : String) :
    PyVal × SentimentCache :=
  if env.llmOnline then
    match env.llmReply with
    | some extracted =>
        let result := match extracted with
          | some j => j
          | none => create_default_sentiment_result coin "neutro"
        match validate_sentiment_result result with
        | some r => (r, alistSet cache key (now, r))
        | none => (create_default_sentiment_result coin "neutro", cache)
    | none =>
        if useOpenaiFallback then (use_openai_for_sentiment env, cache)
        else (create_default_sentiment_result coin "neutro", cache)
  else
    if useOpenaiFallback then (use_openai_for_sentiment env, cache)
    else (create_default_sentiment_result coin "neutro", cache)

/-- `analyze_sentiment_with_llm` (lines 116-194): a cache hit within
`SENTIMENT_CACHE_DURATION` returns the cached verdict with no oracle call;
otherwise the miss body runs. -/
def analyze_sentiment_with_llm (useOpenaiFallback : Bool) (cacheDuration : ℚ)
    (env : LlmEnv) (cache : SentimentCache) (coin : String) (now : ℚ) :
    PyVal × SentimentCache :=
  let key := sentiment_cache_key coin now
  match alistGet cache key with
  | some tc =>
      if now - tc.1 < cacheDuration then (tc.2, cache)
      else analyze_sentiment_miss useOpenaiFallback env cache coin now key
  | none => analyze_sentiment_miss useOpenaiFallback env cache coin now key

/-! ## Association-list lemmas -/

theorem alistGet_set_self {α : Type} (es : List (String × α)) (k : String) (v : α) :
    alistGet (alistSet es k v) k = some v := by
  induction es with
  | nil => simp [alistSet, alistGet]
  | cons kv rest ih =>
      obtain ⟨k', w⟩ := kv
      by_cases h : k' = k
      · simp [alistSet, alistGet, h]
      · simp [alistSet, alistGet, h, ih]

theorem alistGet_set_ne {α : Type} (es : List (String × α)) (k : String) (v : α)
    (k' : String) (h : k ≠ k') : alistGet (alistSet es k v) k' = alistGet es k' := by
  induction es with
  | nil => simp [alistSet, alistGet, h]
  | cons kv rest ih =>
      obtain ⟨k'', w⟩ := kv
      by_cases h2 : k'' = k
      · subst h2
        simp [alistSet, alistGet, h]
      · simp [alistSet, alistGet, h2, ih]

theorem alistSet_eq_self {α : Type} (es : List (String × α)) (k : String) (v : α)
    (h : alistGet es k = some v) : alistSet es k v = es := by
  induction es with
  | nil => simp [alistGet] at h
  | cons kv rest ih =>
      obtain ⟨k', w⟩ := kv
      by_cases h2 : k' = k
      · subst h2
        simp [alistGet] at h
        simp [alistSet, h]
      · simp [alistGet, h2] at h
        simp [alistSet, h2, ih h]

theorem alistGet_set_isSome {α : Type} (es : List (String × α)) (k : String) (v : α)
    (k' : String) (h : (alistGet es k').isSome) :
    (alistGet (alistSet es k v) k').isSome := by
  by_cases h2 : k = k'
  · subst h2
    simp [alistGet_set_self]
  · rw [alistGet_set_ne es k v k' h2]
    exact h

/-! ## Back-fill lemmas -/

theorem fillMissing_get_present (es : List (String × PyVal)) (kv : String × PyVal)
    (k : String) (v : PyVal) (h : alistGet es k = some v) :
    alistGet (fillMissing es kv) k = some v := by
  unfold fillMissing
  split
  · exact h
  · rename_i habs
    by_cases h2 : kv.1 = k
    · subst h2
      simp [h] at habs
    · rw [alistGet_set_ne es kv.1 kv.2 k h2]
      exact h

theorem fillMissing_isSome (es : List (String × PyVal)) (kv : String × PyVal)
    (k : String) (h : (alistGet es k).isSome) :
    (alistGet (fillMissing es kv) k).isSome := by
  obtain ⟨v, hv⟩ := Option.isSome_iff_exists.mp h
  rw [fillMissing_get_present es kv k v hv]
  rfl

theorem fillMissing_self_isSome (es : List (String × PyVal)) (kv : String × PyVal) :
    (alistGet (fillMissing es kv) kv.1).isSome := by
  unfold fillMissing
  split
  · assumption
  · simp [alistGet_set_self]

theorem foldl_fillMissing_get_present (l : List (String × PyVal))
    (es : List (String × PyVal)) (k : String) (v : PyVal)
    (h : alistGet es k = some v) :
    alistGet (l.foldl fillMissing es) k = some v := by
  induction l generalizing es with
  | nil => exact h
  | cons kv rest ih =>
      simp only [List.foldl_cons]
      exact ih (fillMissing es kv) (fillMissing_get_present es kv k v h)

theorem foldl_fillMissing_isSome (l : List (String × PyVal))
    (es : List (String × PyVal)) (k : String) (h : (alistGet es k).isSome) :
    (alistGet (l.foldl fillMissing es) k).isSome := by
  obtain ⟨v, hv⟩ := Option.isSome_iff_exists.mp h
  rw [foldl_fillMissing_get_present l es k v hv]
  rfl

theorem foldl_fillMissing_all (l : List (String × PyVal))
    (es : List (String × PyVal)) :
    ∀ kv ∈ l, (alistGet (l.foldl fillMissing es) kv.1).isSome := by
  induction l generalizing es with
  | nil => intro kv hkv; simp at hkv
  | cons a rest ih =>
      intro kv hkv
      rcases List.mem_cons.mp hkv with h | h
      · simp only [List.foldl_cons]
        rw [h]
        exact foldl_fillMissing_isSome rest (fillMissing es a) a.1
          (fillMissing_self_isSome es a)
      · simp only [List.foldl_cons]
        exact ih (fillMissing es a) kv h

theorem foldl_fillMissing_id (l : List (String × PyVal))
    (es : List (String × PyVal))
    (h : ∀ kv ∈ l, (alistGet es kv.1).isSome) : l.foldl fillMissing es = es := by
  induction l with
  | nil => rfl
  | cons a rest ih =>
      have ha : fillMissing es a = es := by
        unfold fillMissing
        rw [if_pos (h a (by simp))]
      simp only [List.foldl_cons, ha]
      exact ih (fun kv hkv => h kv (by simp [hkv]))

/-! ## Score-clamp lemmas -/

theorem clampScoreVal_eval (x : PyVal) (q : ℚ) (hx : pyToQ x = some q) :
    clampScoreVal x =
      some (if q < 100 then (if 0 < q then x else .int 0) else .int 100) := by
  unfold clampScoreVal pyMin100 pyMax0
  rw [hx]
  dsimp only
  by_cases h100 : q < 100
  · rw [if_pos h100, if_pos h100, Option.some_bind, hx]
    dsimp only
    by_cases h0 : (0 : ℚ) < q
    · rw [if_pos h0, if_pos h0]
    · rw [if_neg h0, if_neg h0]
  · rw [if_neg h100, if_neg h100, Option.some_bind]
    simp only [pyToQ]
    norm_num

theorem clampScoreVal_cases (x c : PyVal) (h : clampScoreVal x = some c) :
    ∃ q, pyToQ x = some q ∧
      ((q < 100 ∧ 0 < q ∧ c = x) ∨
       (q < 100 ∧ ¬ 0 < q ∧ c = .int 0) ∨
       (¬ q < 100 ∧ c = .int 100)) := by
  cases hx : pyToQ x with
  | none =>
      unfold clampScoreVal pyMin100 at h
      rw [hx] at h
      simp at h
  | some q =>
      rw [clampScoreVal_eval x q hx] at h
      refine ⟨q, rfl, ?_⟩
      by_cases h100 : q < 100
      · rw [if_pos h100] at h
        by_cases h0 : (0 : ℚ) < q
        · rw [if_pos h0] at h
          exact Or.inl ⟨h100, h0, (Option.some.injEq _ _ ▸ h).symm⟩
        · rw [if_neg h0] at h
          exact Or.inr (Or.inl ⟨h100, h0, (Option.some.injEq _ _ ▸ h).symm⟩)
      · rw [if_neg h100] at h
        exact Or.inr (Or.inr ⟨h100, (Option.some.injEq _ _ ▸ h).symm⟩)

theorem clampScoreVal_fix (x c : PyVal) (h : clampScoreVal x = some c) :
    clampScoreVal c = some c := by
  obtain ⟨q, hq, hcase⟩ := clampScoreVal_cases x c h
  rcases hcase with ⟨h100, h0, rfl⟩ | ⟨h100, h0, rfl⟩ | ⟨h100, rfl⟩
  · rw [clampScoreVal_eval c q hq, if_pos h100, if_pos h0]
  · rw [clampScoreVal_eval (.int 0) 0 (by simp [pyToQ])]
    norm_num
  · rw [clampScoreVal_eval (.int 100) 100 (by simp [pyToQ])]
    norm_num

theorem clampScoreVal_not_str (x c : PyVal) (h : clampScoreVal x = some c) :
    ∀ t, c ≠ PyVal.str t := by
  obtain ⟨q, hq, hcase⟩ := clampScoreVal_cases x c h
  rcases hcase with ⟨_, _, rfl⟩ | ⟨_, _, rfl⟩ | ⟨_, rfl⟩
  · intro t ht
    subst ht
    simp [pyToQ] at hq
  · intro t ht; simp at ht
  · intro t ht; simp at ht

theorem clampScoreVal_self_bounds (s : PyVal) (h : clampScoreVal s = some s) :
    ∃ q, pyToQ s = some q ∧ 0 ≤ q ∧ q ≤ 100 := by
  obtain ⟨q, hq, hcase⟩ := clampScoreVal_cases s s h
  refine ⟨q, hq, ?_⟩
  rcases hcase with ⟨h100, h0, _⟩ | ⟨h100, h0, heq⟩ | ⟨h100, heq⟩
  · exact ⟨le_of_lt h0, le_of_lt h100⟩
  · rw [heq] at hq
    simp only [pyToQ, Option.some.injEq] at hq
    rw [← hq]
    norm_num
  · rw [heq] at hq
    simp only [pyToQ, Option.some.injEq] at hq
    rw [← hq]
    norm_num

/-! ## The validation invariant -/

/-- The invariant characterising the dict entries produced by
`validate_sentiment_result`: the score is present, non-string and a fixed
point of the clamp; the recommendation is canonical; the key factors are a
list; and every default field is present. -/
structure ValidatedEntries (es : List (String × PyVal)) : Prop where
  scoreOk : ∃ s, alistGet es "score" = some s ∧ clampScoreVal s = some s ∧
    (∀ t, s ≠ PyVal.str t)
  recOk : ∃ b, alistGet es "buy_recommendation" = some b ∧ canonicalRec b = true
  kfOk : ∃ xs, alistGet es "key_factors" = some (.list xs)
  allPresent : ∀ kv ∈ defaultEntries "desconhecido" "neutro",
    (alistGet es kv.1).isSome

theorem coerceScore_isSome (es : List (String × PyVal)) (k : String)
    (h : (alistGet es k).isSome) : (alistGet (coerceScore es) k).isSome := by
  unfold coerceScore
  split
  · split
    · exact alistGet_set_isSome es "score" _ k h
    · exact alistGet_set_isSome es "score" _ k h
  · exact h

theorem coerceScore_score_not_str (es : List (String × PyVal))
    (hp : (alistGet es "score").isSome) :
    ∃ s, alistGet (coerceScore es) "score" = some s ∧ ∀ t, s ≠ PyVal.str t := by
  unfold coerceScore
  split
  · split
    · rename_i n hi
      exact ⟨.int n, alistGet_set_self es "score" (.int n), by intro t ht; simp at ht⟩
    · exact ⟨.int 50, alistGet_set_self es "score" (.int 50), by intro t ht; simp at ht⟩
  · rename_i hnot
    obtain ⟨v, hv⟩ := Option.isSome_iff_exists.mp hp
    refine ⟨v, hv, ?_⟩
    intro t ht
    subst ht
    exact hnot t hv

theorem clampScore_some (es es3 : List (String × PyVal))
    (h : clampScore es = some es3) :
    ∃ s c, alistGet es "score" = some s ∧ clampScoreVal s = some c ∧
      es3 = alistSet es "score" c := by
  unfold clampScore at h
  split at h
  · rename_i s hg
    cases hc : clampScoreVal s with
    | none => rw [hc] at h; simp at h
    | some c =>
        rw [hc] at h
        simp only [Option.map_some', Option.some.injEq] at h
        exact ⟨s, c, hg, hc, h.symm⟩
  · simp at h

theorem fixBuyRec_some (es es4 : List (String × PyVal))
    (h : fixBuyRecommendation es = some es4) :
    (es4 = es ∧ ∃ b, alistGet es "buy_recommendation" = some b ∧
        canonicalRec b = true) ∨
    (∃ X, canonicalRec (.str X) = true ∧
      es4 = alistSet es "buy_recommendation" (.str X)) := by
  unfold fixBuyRecommendation at h
  split at h
  · simp at h
  · rename_i v hg
    by_cases hcan : canonicalRec v = true
    · rw [if_pos hcan] at h
      simp only [Option.some.injEq] at h
      exact Or.inl ⟨h.symm, v, hg, hcan⟩
    · rw [if_neg hcan] at h
      split at h
      · rename_i s
        dsimp only at h
        split at h
        · simp only [Option.some.injEq] at h
          exact Or.inr ⟨"SIM", by rfl, h.symm⟩
        · split at h
          · simp only [Option.some.injEq] at h
            exact Or.inr ⟨"NÃO", by rfl, h.symm⟩
          · simp only [Option.some.injEq] at h
            exact Or.inr ⟨"NEUTRO", by rfl, h.symm⟩
      · simp at h

theorem fixKeyFactors_cases (es : List (String × PyVal))
    (hp : (alistGet es "key_factors").isSome) :
    (fixKeyFactors es = es ∧ ∃ xs, alistGet es "key_factors" = some (.list xs)) ∨
    ∃ xs, fixKeyFactors es = alistSet es "key_factors" (.list xs) := by
  unfold fixKeyFactors
  split
  · rename_i xs hg
    exact Or.inl ⟨rfl, xs, hg⟩
  · rename_i s hg
    exact Or.inr ⟨[.str s], rfl⟩
  · exact Or.inr ⟨[.str "Fator não especificado"], rfl⟩
  · rename_i hg
    rw [hg] at hp
    simp at hp

theorem validated_fixed (es : List (String × PyVal)) (h : ValidatedEntries es) :
    validate_sentiment_result (.dict es) = some (.dict es) := by
  obtain ⟨s, hs, hclamp, hnotstr⟩ := h.scoreOk
  obtain ⟨b, hb, hbcanon⟩ := h.recOk
  obtain ⟨xs, hkf⟩ := h.kfOk
  have hback : backfillDefaults es = es :=
    foldl_fillMissing_id _ es h.allPresent
  have hco : coerceScore es = es := by
    unfold coerceScore
    split
    · rename_i t hg
      rw [hs] at hg
      simp only [Option.some.injEq] at hg
      exact absurd hg (hnotstr t)
    · rfl
  have hcl : clampScore es = some es := by
    unfold clampScore
    split
    · rename_i s' hg
      rw [hs] at hg
      simp only [Option.some.injEq] at hg
      subst hg
      rw [hclamp]
      simp only [Option.map_some']
      rw [alistSet_eq_self es "score" s hs]
    · rename_i hg
      rw [hs] at hg
      simp at hg
  have hfb : fixBuyRecommendation es = some es := by
    unfold fixBuyRecommendation
    split
    · rename_i hg
      rw [hb] at hg
      simp at hg
    · rename_i v hg
      rw [hb] at hg
      simp only [Option.some.injEq] at hg
      subst hg
      rw [if_pos hbcanon]
  have hfk : fixKeyFactors es = es := by
    unfold fixKeyFactors
    rw [hkf]
  show (clampScore (coerceScore (backfillDefaults es))).bind (fun es3 =>
      (fixBuyRecommendation es3).map fun es4 => PyVal.dict (fixKeyFactors es4)) =
    some (.dict es)
  rw [hback, hco, hcl, Option.some_bind, hfb, Option.map_some', hfk]

theorem clamp_phase (es2 es3 : List (String × PyVal))
    (hcl : clampScore es2 = some es3) :
    (∃ s, alistGet es3 "score" = some s ∧ clampScoreVal s = some s ∧
      (∀ t, s ≠ PyVal.str t)) ∧
    (∀ k, alistGet es3 k = alistGet es2 k ∨ k = "score") ∧
    (∀ k, (alistGet es2 k).isSome → (alistGet es3 k).isSome) := by
  obtain ⟨s, c, hsget, hcv, hes3⟩ := clampScore_some es2 es3 hcl
  subst hes3
  refine ⟨⟨c, alistGet_set_self _ _ _, clampScoreVal_fix s c hcv,
    clampScoreVal_not_str s c hcv⟩, ?_, ?_⟩
  · intro k
    by_cases hk : k = "score"
    · exact Or.inr hk
    · exact Or.inl (alistGet_set_ne _ _ _ _ (Ne.symm hk))
  · intro k hk
    exact alistGet_set_isSome _ _ _ _ hk

theorem buyrec_phase (es3 es4 : List (String × PyVal))
    (hfb : fixBuyRecommendation es3 = some es4) :
    (∃ b, alistGet es4 "buy_recommendation" = some b ∧ canonicalRec b = true) ∧
    (∀ k, alistGet es4 k = alistGet es3 k ∨ k = "buy_recommendation") ∧
    (∀ k, (alistGet es3 k).isSome → (alistGet es4 k).isSome) := by
  rcases fixBuyRec_some es3 es4 hfb with ⟨heq4, b, hbget, hbcanon⟩ | ⟨X, hXcanon, heq4⟩
  · subst heq4
    exact ⟨⟨b, hbget, hbcanon⟩, fun k => Or.inl rfl, fun k hk => hk⟩
  · subst heq4
    refine ⟨⟨.str X, alistGet_set_self _ _ _, hXcanon⟩, ?_, ?_⟩
    · intro k
      by_cases hk : k = "buy_recommendation"
      · exact Or.inr hk
      · exact Or.inl (alistGet_set_ne _ _ _ _ (Ne.symm hk))
    · intro k hk
      exact alistGet_set_isSome _ _ _ _ hk

theorem kf_phase (es4 : List (String × PyVal))
    (hp : (alistGet es4 "key_factors").isSome) :
    (∃ xs, alistGet (fixKeyFactors es4) "key_factors" = some (.list xs)) ∧
    (∀ k, alistGet (fixKeyFactors es4) k = alistGet es4 k ∨ k = "key_factors") ∧
    (∀ k, (alistGet es4 k).isSome → (alistGet (fixKeyFactors es4) k).isSome) := by
  rcases fixKeyFactors_cases es4 hp with ⟨heq5, ys, hys⟩ | ⟨ys, heq5⟩
  · rw [heq5]
    exact ⟨⟨ys, hys⟩, fun k => Or.inl rfl, fun k hk => hk⟩
  · rw [heq5]
    refine ⟨⟨ys, alistGet_set_self _ _ _⟩, ?_, ?_⟩
    · intro k
      by_cases hk : k = "key_factors"
      · exact Or.inr hk
      · exact Or.inl (alistGet_set_ne _ _ _ _ (Ne.symm hk))
    · intro k hk
      exact alistGet_set_isSome _ _ _ _ hk

theorem validate_dict_shape (es : List (String × PyVal)) (r : PyVal)
    (h : validate_sentiment_result (.dict es) = some r) :
    ∃ es5, r = .dict es5 ∧ ValidatedEntries es5 := by
  replace h : (clampScore (coerceScore (backfillDefaults es))).bind (fun es3 =>
      (fixBuyRecommendation es3).map fun es4 => PyVal.dict (fixKeyFactors es4)) =
      some r := h
  obtain ⟨es3, hcl, h⟩ := Option.bind_eq_some.mp h
  obtain ⟨es4, hfb, h⟩ := Option.map_eq_some'.mp h
  refine ⟨fixKeyFactors es4, h.symm, ?_⟩
  have hpres2 : ∀ kv ∈ defaultEntries "desconhecido" "neutro",
      (alistGet (coerceScore (backfillDefaults es)) kv.1).isSome := by
    intro kv hkv
    exact coerceScore_isSome _ kv.1 (foldl_fillMissing_all _ es kv hkv)
  obtain ⟨⟨s, hs3, hsfix, hsnotstr⟩, hpre3, hsome3⟩ := clamp_phase _ es3 hcl
  obtain ⟨⟨b, hb4, hbcanon⟩, hpre4, hsome4⟩ := buyrec_phase es3 es4 hfb
  have hkf4 : (alistGet es4 "key_factors").isSome := by
    refine hsome4 _ (hsome3 _ ?_)
    have := hpres2 ("key_factors", .list
      [.str "Análise de sentimento inconclusiva para desconhecido"])
      (by simp [defaultEntries])
    simpa using this
  obtain ⟨⟨ys, hkf5⟩, hpre5, hsome5⟩ := kf_phase es4 hkf4
  have hs5 : alistGet (fixKeyFactors es4) "score" = some s := by
    rcases hpre5 "score" with he | he
    · rw [he]
      rcases hpre4 "score" with he2 | he2
      · rw [he2]
        exact hs3
      · exact absurd he2 (by decide)
    · exact absurd he (by decide)
  have hb5 : alistGet (fixKeyFactors es4) "buy_recommendation" = some b := by
    rcases hpre5 "buy_recommendation" with he | he
    · rw [he]
      exact hb4
    · exact absurd he (by decide)
  refine ⟨⟨s, hs5, hsfix, hsnotstr⟩, ⟨b, hb5, hbcanon⟩, ⟨ys, hkf5⟩, ?_⟩
  intro kv hkv
  exact hsome5 _ (hsome4 _ (hsome3 _ (hpres2 kv hkv)))

theorem defaultEntries_validated (coin sentiment : String) :
    ValidatedEntries (defaultEntries coin sentiment) := by
  refine ⟨⟨.int 50, by rfl, ?_, by intro t ht; simp at ht⟩,
          ⟨.str "NEUTRO", by rfl, by rfl⟩,
          ⟨[.str ("Análise de sentimento inconclusiva para " ++ coin)], by rfl⟩,
          ?_⟩
  · rw [clampScoreVal_eval (.int 50) 50 (by norm_num [pyToQ])]
    norm_num
  · intro kv hkv
    fin_cases hkv <;> rfl

/-- Any default verdict is a fixed point of validation. -/
theorem validate_default (coin sentiment : String) :
    validate_sentiment_result (create_default_sentiment_result coin sentiment) =
      some (create_default_sentiment_result coin sentiment) :=
  validated_fixed _ (defaultEntries_validated coin sentiment)

theorem validated_conclusion (es : List (String × PyVal)) (hval : ValidatedEntries es) :
    validate_sentiment_result (.dict es) = some (.dict es) ∧
    ∃ es2, PyVal.dict es = PyVal.dict es2 ∧
      (∀ kv ∈ defaultEntries "desconhecido" "neutro", (alistGet es2 kv.1).isSome) ∧
      (∃ s q, alistGet es2 "score" = some s ∧ pyToQ s = some q ∧ 0 ≤ q ∧ q ≤ 100) ∧
      (∃ b, alistGet es2 "buy_recommendation" = some b ∧ canonicalRec b = true) ∧
      (∃ xs, alistGet es2 "key_factors" = some (.list xs)) := by
  obtain ⟨s, hs, hsfix, _⟩ := hval.scoreOk
  obtain ⟨q, hq, h0, h100⟩ := clampScoreVal_self_bounds s hsfix
  exact ⟨validated_fixed es hval, es, rfl, hval.allPresent,
    ⟨s, q, hs, hq, h0, h100⟩, hval.recOk, hval.kfOk⟩

/-- The rational 75.5, built in lowest terms so that it evaluates by
kernel reduction. -/
def ratHalf151 : ℚ := ⟨151, 2, by norm_num, by norm_num⟩

/-- A complete verdict dict whose score is the JSON float 75.5. -/
def floatScoreVerdict : List (String × PyVal) :=
  [("sentiment", .str "neutro"),
   ("score", .float ratHalf151),
   ("buy_recommendation", .str "NEUTRO"),
   ("key_factors", .list [.str "Análise de sentimento inconclusiva para x"]),
   ("reddit_sentiment", .str "neutro"),
   ("twitter_sentiment", .str "neutro"),
   ("news_sentiment", .str "neutro"),
   ("error", .str "Falha na análise de sentimento")]

/-- Claim C10, counterexample: the claim characterises every validation
output as carrying an *integer* score in [0,100], but a verdict whose score
is the JSON float 75.5 passes through `validate_sentiment_result` untouched
(it is its own output and a fixed point) with its score still a float, not
an integer: the clamp `max(0, min(100, score))` never converts a float
strictly between the bounds. -/
theorem c10_counterexample :
    validate_sentiment_result (.dict floatScoreVerdict) =
        some (.dict floatScoreVerdict) ∧
    alistGet floatScoreVerdict "score" = some (.float ratHalf151) ∧
    ∀ n : ℤ, PyVal.float ratHalf151 ≠ PyVal.int n := by
  refine ⟨by rfl, by rfl, ?_⟩
  intro n h
  exact PyVal.noConfusion h

/-- Claim C10, amended: validation is idempotent where it is defined — every
output of `validate_sentiment_result` is a fixed point: a dict carrying all
default fields, a *numeric* score (int, float or bool) whose numeric value
lies in [0,100] (an integer whenever the input score was a string or out of
bounds, but a float input strictly inside the bounds stays a float), a
`buy_recommendation` in {SIM, NÃO, NEUTRO}, and `key_factors` as a list.
(On inputs whose score or recommendation has a pathological type the Python
function raises instead of returning, modelled by `none`.) -/
theorem c10_amended (v r : PyVal) (h : validate_sentiment_result v = some r) :
    validate_sentiment_result r = some r ∧
    ∃ es, r = PyVal.dict es ∧
      (∀ kv ∈ defaultEntries "desconhecido" "neutro", (alistGet es kv.1).isSome) ∧
      (∃ s q, alistGet es "score" = some s ∧ pyToQ s = some q ∧ 0 ≤ q ∧ q ≤ 100) ∧
      (∃ b, alistGet es "buy_recommendation" = some b ∧ canonicalRec b = true) ∧
      (∃ xs, alistGet es "key_factors" = some (.list xs)) := by
  cases v with
  | dict es0 =>
      obtain ⟨es, hr, hval⟩ := validate_dict_shape es0 r h
      subst hr
      exact validated_conclusion es hval
  | pynone =>
      replace h : some (create_default_sentiment_result "desconhecido" "neutro") =
        some r := h
      simp only [Option.some.injEq] at h
      subst h
      exact validated_conclusion _ (defaultEntries_validated "desconhecido" "neutro")
  | pybool b =>
      replace h : some (create_default_sentiment_result "desconhecido" "neutro") =
        some r := h
      simp only [Option.some.injEq] at h
      subst h
      exact validated_conclusion _ (defaultEntries_validated "desconhecido" "neutro")
  | str s =>
      replace h : some (create_default_sentiment_result "desconhecido" "neutro") =
        some r := h
      simp only [Option.some.injEq] at h
      subst h
      exact validated_conclusion _ (defaultEntries_validated "desconhecido" "neutro")
  | int n =>
      replace h : some (create_default_sentiment_result "desconhecido" "neutro") =
        some r := h
      simp only [Option.some.injEq] at h
      subst h
      exact validated_conclusion _ (defaultEntries_validated "desconhecido" "neutro")
  | float q =>
      replace h : some (create_default_sentiment_result "desconhecido" "neutro") =
        some r := h
      simp only [Option.some.injEq] at h
      subst h
      exact validated_conclusion _ (defaultEntries_validated "desconhecido" "neutro")
  | list xs =>
      replace h : some (create_default_sentiment_result "desconhecido" "neutro") =
        some r := h
      simp only [Option.some.injEq] at h
      subst h
      exact validated_conclusion _ (defaultEntries_validated "desconhecido" "neutro")

/-- Witness for `c10_amended`: validating the empty dict back-fills every
default field, and the result is a fixed point of validation. -/
theorem c10_amended_witness :
    validate_sentiment_result (create_default_sentiment_result "desconhecido" "neutro")
      = some (create_default_sentiment_result "desconhecido" "neutro") :=
  (c10_amended (.dict [])
    (create_default_sentiment_result "desconhecido" "neutro") (by rfl)).1

/-- On a cache miss `analyze_sentiment_with_llm` runs its miss body. -/
theorem analyze_miss_of_none (useOpenaiFallback : Bool) (cacheDuration : ℚ)
    (env : LlmEnv) (cache : SentimentCache) (coin : String) (now : ℚ)
    (hmiss : alistGet cache (sentiment_cache_key coin now) = none) :
    analyze_sentiment_with_llm useOpenaiFallback cacheDuration env cache coin now =
      analyze_sentiment_miss useOpenaiFallback env cache coin now
        (sentiment_cache_key coin now) := by
  simp only [analyze_sentiment_with_llm]
  rw [hmiss]

/-- A cache hit within the TTL returns the cached verdict and leaves the
cache unchanged (no oracle interaction). -/
theorem analyze_hit (useOpenaiFallback : Bool) (cacheDuration : ℚ) (env : LlmEnv)
    (cache : SentimentCache) (coin : String) (now t : ℚ) (r : PyVal)
    (hhit : alistGet cache (sentiment_cache_key coin now) = some (t, r))
    (hfresh : now - t < cacheDuration) :
    analyze_sentiment_with_llm useOpenaiFallback cacheDuration env cache coin now =
      (r, cache) := by
  simp only [analyze_sentiment_with_llm]
  rw [hhit]
  dsimp only
  rw [if_pos hfresh]

set_option maxHeartbeats 1000000 in
/-- The miss body when the LLM is online and replies, but JSON extraction
fails: the *default* verdict for the coin is validated, cached, and
returned. -/
theorem analyze_miss_extract_failed (useOpenaiFallback : Bool) (env : LlmEnv)
    (cache : SentimentCache) (coin : String) (now : ℚ) (key : String)
    (honline : env.llmOnline = true) (hreply : env.llmReply = some none) :
    analyze_sentiment_miss useOpenaiFallback env cache coin now key =
      (create_default_sentiment_result coin "neutro",
       alistSet cache key (now, create_default_sentiment_result coin "neutro")) := by
  unfold analyze_sentiment_miss
  rw [honline, hreply]
  show (match validate_sentiment_result (create_default_sentiment_result coin
      "neutro") with
    | some r => (r, alistSet cache key (now, r))
    | none => (create_default_sentiment_result coin "neutro", cache)) = _
  rw [validate_default coin "neutro"]

/-- The miss body when the LLM is online, replies, and the reply's JSON
validates: the validated verdict is cached and returned. -/
theorem analyze_miss_extract_ok (useOpenaiFallback : Bool) (env : LlmEnv)
    (cache : SentimentCache) (coin : String) (now : ℚ) (key : String)
    (j r : PyVal) (honline : env.llmOnline = true)
    (hreply : env.llmReply = some (some j))
    (hval : validate_sentiment_result j = some r) :
    analyze_sentiment_miss useOpenaiFallback env cache coin now key =
      (r, alistSet cache key (now, r)) := by
  unfold analyze_sentiment_miss
  rw [honline, hreply]
  show (match validate_sentiment_result j with
    | some r => (r, alistSet cache key (now, r))
    | none => (create_default_sentiment_result coin "neutro", cache)) = _
  rw [hval]

/-- The miss body when the interaction never reaches a usable local-LLM
response (offline, or no usable reply): the cache is untouched. -/
theorem analyze_miss_no_response (useOpenaiFallback : Bool) (env : LlmEnv)
    (cache : SentimentCache) (coin : String) (now : ℚ) (key : String)
    (hfail : env.llmOnline = false ∨ env.llmReply = none) :
    (analyze_sentiment_miss useOpenaiFallback env cache coin now key).2 =
      cache := by
  unfold analyze_sentiment_miss
  rcases hfail with hoff | hrep
  · rw [hoff]
    cases useOpenaiFallback <;> rfl
  · cases honline : env.llmOnline
    · cases useOpenaiFallback <;> rfl
    · rw [hrep]
      cases useOpenaiFallback <;> rfl

/-- Claim C4, counterexample: with the local LLM online and replying with a
usable response whose content yields no extractable JSON, the default-neutral
verdict — error marker included — IS written to the sentiment cache (lines
176-185 of `analysis/sentiment.py` validate and cache it), and a later
request for the same symbol in the same hour bucket returns that cached
default instead of issuing a fresh oracle attempt. -/
theorem c4_counterexample :
    (analyze_sentiment_with_llm false 36000 ⟨true, some none, none⟩ [] "BTC" 0).2 =
        [("BTC_0", (0, create_default_sentiment_result "BTC" "neutro"))] ∧
    alistGet (defaultEntries "BTC" "neutro") "error" =
        some (.str "Falha na análise de sentimento") ∧
    (analyze_sentiment_with_llm false 36000 ⟨true, some none, none⟩
        [("BTC_0", (0, create_default_sentiment_result "BTC" "neutro"))]
        "BTC" 600).1 = create_default_sentiment_result "BTC" "neutro" ∧
    (analyze_sentiment_with_llm false 36000 ⟨true, some none, none⟩
        [("BTC_0", (0, create_default_sentiment_result "BTC" "neutro"))]
        "BTC" 600).2 =
        [("BTC_0", (0, create_default_sentiment_result "BTC" "neutro"))] := by
  have hkey0 : sentiment_cache_key "BTC" 0 = "BTC_0" := by
    have h0 : (⌊(0 : ℚ) / 3600⌋ : ℤ) = 0 := by norm_num
    simp only [sentiment_cache_key, h0]
    rfl
  have hkey600 : sentiment_cache_key "BTC" 600 = "BTC_0" := by
    have h0 : (⌊(600 : ℚ) / 3600⌋ : ℤ) = 0 := by
      rw [Int.floor_eq_zero_iff]
      constructor <;> norm_num
    simp only [sentiment_cache_key, h0]
    rfl
  have hhit : alistGet [("BTC_0", ((0 : ℚ),
      create_default_sentiment_result "BTC" "neutro"))]
      (sentiment_cache_key "BTC" 600) =
      some (0, create_default_sentiment_result "BTC" "neutro") := by
    rw [hkey600]
    rfl
  have h600 := analyze_hit false 36000 ⟨true, some none, none⟩
    [("BTC_0", (0, create_default_sentiment_result "BTC" "neutro"))] "BTC" 600 0
    (create_default_sentiment_result "BTC" "neutro") hhit (by norm_num)
  refine ⟨?_, by rfl, ?_, ?_⟩
  · rw [analyze_miss_of_none false 36000 ⟨true, some none, none⟩ [] "BTC" 0
      (by rw [hkey0]; rfl)]
    rw [analyze_miss_extract_failed false ⟨true, some none, none⟩ [] "BTC" 0 _
      rfl rfl]
    rw [hkey0]
    rfl
  · rw [h600]
  · rw [h600]

/-- Claim C4, amended: on a cache miss, the failure paths that never reach a
usable local-LLM response (LLM offline, or the retried request yields no
usable `choices`) do not write the cache — there the fallback/default verdict
is returned uncached, so a later same-bucket request retries.  But when the
local LLM is online and returns a usable response, the cache is written even
when JSON extraction fails: in that case the stored verdict is the validated
default-neutral verdict, which carries the `"error"` marker, and later
same-bucket requests serve it from the cache.  Successfully extracted and
validated verdicts are cached as the claim states. -/
theorem c4_amended (useOpenaiFallback : Bool) (cacheDuration : ℚ) (env : LlmEnv)
    (cache : SentimentCache) (coin : String) (now : ℚ)
    (hmiss : alistGet cache (sentiment_cache_key coin now) = none) :
    ((env.llmOnline = false ∨ env.llmReply = none) →
      (analyze_sentiment_with_llm useOpenaiFallback cacheDuration env cache coin
        now).2 = cache) ∧
    (env.llmOnline = true → env.llmReply = some none →
      (analyze_sentiment_with_llm useOpenaiFallback cacheDuration env cache coin
          now).1 = create_default_sentiment_result coin "neutro" ∧
      (analyze_sentiment_with_llm useOpenaiFallback cacheDuration env cache coin
          now).2 = alistSet cache (sentiment_cache_key coin now)
            (now, create_default_sentiment_result coin "neutro") ∧
      alistGet (defaultEntries coin "neutro") "error" =
        some (.str "Falha na análise de sentimento")) ∧
    (∀ j r, env.llmOnline = true → env.llmReply = some (some j) →
      validate_sentiment_result j = some r →
      (analyze_sentiment_with_llm useOpenaiFallback cacheDuration env cache coin
          now).1 = r ∧
      (analyze_sentiment_with_llm useOpenaiFallback cacheDuration env cache coin
          now).2 = alistSet cache (sentiment_cache_key coin now) (now, r)) := by
  have hrun := analyze_miss_of_none useOpenaiFallback cacheDuration env cache coin
    now hmiss
  refine ⟨?_, ?_, ?_⟩
  · intro hoff
    rw [hrun]
    exact analyze_miss_no_response useOpenaiFallback env cache coin now _ hoff
  · intro honline hreply
    rw [hrun, analyze_miss_extract_failed useOpenaiFallback env cache coin now _
      honline hreply]
    exact ⟨rfl, rfl, rfl⟩
  · intro j r honline hreply hval
    rw [hrun, analyze_miss_extract_ok useOpenaiFallback env cache coin now _ j r
      honline hreply hval]
    exact ⟨rfl, rfl⟩

/-- Witness for `c4_amended`: empty cache (a miss), LLM online, usable reply
with no extractable JSON — the default verdict for BTC is returned and
written to the cache under the hour-0 key. -/
theorem c4_amended_witness :
    (analyze_sentiment_with_llm false 36000 ⟨true, some none, none⟩ [] "BTC" 0).2 =
      alistSet [] (sentiment_cache_key "BTC" 0)
        (0, create_default_sentiment_result "BTC" "neutro") := by
  have h := c4_amended false 36000 ⟨true, some none, none⟩ [] "BTC" 0 rfl
  exact (h.2.1 rfl rfl).2.1

/-- Claim C8, counterexample: the Bollinger position division is NOT guarded.
For the constant series `[5, 5]` (window 2, zero sample deviation — any model
of float `sqrt` maps 0 to 0; here the identity is used, which agrees with
`sqrt` at 0), the bands coincide (`upper = lower = 5`) and
`(price - lower)/(upper - lower)` is the unguarded float division `0/0`,
yielding NaN — not a defined numeric result. -/
theorem c8_counterexample :
    calculate_bollinger_bands (fun q => q) [(5 : ℚ), 5] 2 2 =
      some ⟨5, 5, 5, 5, PFl.nan⟩ ∧
    ∀ q : ℚ, PFl.nan ≠ PFl.num q := by
  refine ⟨?_, fun q h => PFl.noConfusion h⟩
  norm_num [calculate_bollinger_bands, lastN, sampleVariance]

/-- Claim C8, amended: the position computation carries no division-by-zero
guard.  Whenever the bands are defined (window filled, `period ≥ 2`), the
position is the rational `(price - lower)/(upper - lower)` exactly when
`upper ≠ lower`; when the bands coincide (zero rolling deviation) the
unguarded division yields a float special value (NaN or ±∞), never a defined
number. -/
theorem c8_amended (sqrtFn : ℚ → ℚ) (closes : List ℚ) (period : ℕ) (stdDev : ℚ)
    (h2 : 2 ≤ period) (hlen : period ≤ closes.length) (hne : closes ≠ []) :
    ∃ out, calculate_bollinger_bands sqrtFn closes period stdDev = some out ∧
      (out.upper - out.lower ≠ 0 →
        out.position =
          .num ((out.currentPrice - out.lower) / (out.upper - out.lower))) ∧
      (out.upper - out.lower = 0 → ∀ q, out.position ≠ .num q) := by
  unfold calculate_bollinger_bands
  cases hlast : closes.getLast? with
  | none =>
      exact absurd (List.getLast?_eq_none_iff.mp hlast) hne
  | some current =>
      dsimp only
      have hnl : ¬ closes.length < period := not_lt.mpr hlen
      have hnp : ¬ period < 2 := not_lt.mpr h2
      rw [if_neg hnl, if_neg hnp]
      refine ⟨_, rfl, ?_, ?_⟩
      · intro hdz
        dsimp only at hdz ⊢
        rw [if_neg hdz]
      · intro hdz
        dsimp only at hdz ⊢
        rw [if_pos hdz]
        set sma := (lastN closes period).sum / (period : ℚ) with hsma
        set std := sqrtFn (sampleVariance (lastN closes period)) with hstd
        by_cases hnum : current - (sma - std * stdDev) = 0
        · rw [if_pos hnum]
          intro q h
          exact PFl.noConfusion h
        · rw [if_neg hnum]
          by_cases hpos : current - (sma - std * stdDev) > 0
          · rw [if_pos hpos]
            intro q h
            exact PFl.noConfusion h
          · rw [if_neg hpos]
            intro q h
            exact PFl.noConfusion h

/-- Witness for `c8_amended`: the two-bar series `[1, 3]` with window 2,
`k = 2` and the identity in place of `sqrt` — the bands are distinct and the
position is the plain rational division. -/
theorem c8_amended_witness :
    ∃ out, calculate_bollinger_bands (fun q => q) [(1 : ℚ), 3] 2 2 = some out ∧
      (out.upper - out.lower ≠ 0 →
        out.position =
          .num ((out.currentPrice - out.lower) / (out.upper - out.lower))) ∧
      (out.upper - out.lower = 0 → ∀ q, out.position ≠ .num q) :=
  c8_amended (fun q => q) [(1 : ℚ), 3] 2 2 (by norm_num) (by norm_num) (by simp)

end BinanceBot
